import Mathlib

/-
Verification development for the DQM MonitorElement core
(DQMServices/Core/interface/MonitorElement.h) of manuelfs/cmssw.

The header declares the contract; the inline bodies (tagString, hasError,
hasWarning, hasOtherReport, the getQ* accessors, the manage() constructor)
are embedded directly from the source.  The member functions whose bodies
live in a .cc file absent from the snapshot (the cycle-end transition,
runQTests, softReset/disableSoftReset, the fill/update side effects,
isFolder/isNotFolder, getQReport) are modelled from the spec, and each such
definition carries a doc comment saying so.

Floating-point fill arguments are modelled as Int: no claim depends on
float arithmetic, only on which fills happened and how many.
-/

namespace MonitorElement

/-- Modelled from the spec: QReport.h is not in the snapshot; spec section 3
gives the status enum as Ok, Warning, Error, Other. -/
inductive QStatus
  | ok
  | warning
  | error
  | other
deriving DecidableEq

/-- Modelled from the spec: QReport.h is not in the snapshot; spec section 3
gives a quality report the fields testName, status, message, algorithmName,
immutable once produced. -/
structure QReport where
  testName : String
  status : QStatus
  message : String
  algorithmName : String
deriving DecidableEq

/-- Mutating operations of the element: the four Fill arities and the direct
setters declared in MonitorElement.h (setBinContent, setBinError, setEntries,
setBinLabel, setAxisRange).  Float arguments are modelled as Int. -/
inductive MutOp
  | fill1 (v1 : Int)
  | fill2 (v1 v2 : Int)
  | fill3 (v1 v2 v3 : Int)
  | fill4 (v1 v2 v3 v4 : Int)
  | setBinContent1 (binx : Int) (content : Int)
  | setBinContent2 (binx biny : Int) (content : Int)
  | setBinContent3 (binx biny binz : Int) (content : Int)
  | setBinError1 (binx : Int) (e : Int)
  | setBinError2 (binx biny : Int) (e : Int)
  | setBinError3 (binx biny binz : Int) (e : Int)
  | setEntries (nentries : Int)
  | setBinLabel (bin : Int) (label : String) (axis : Int)
  | setAxisRange (xmin xmax : Int) (axis : Int)
deriving DecidableEq

/-- Embedded from the source: the nested bookkeeping class manage of
MonitorElement.h with its three flags (the timestamp member is real time,
out of the embedding). -/
structure manage where
  variedSince : Bool
  folder_flag : Bool
  resetMe : Bool
deriving DecidableEq

/-- State of one MonitoringElement: the manage block, the accumulate_on flag,
the soft-reset baseline snapshot, the aggregate contents (modelled as the log
of mutations applied since the last clear, the aggregate itself being an
opaque external collaborator per the spec), the quality-report map and the
three derived buckets, exactly the data members of MonitorElement.h. -/
structure MEState where
  name : String
  man : manage
  accumulate_on : Bool
  softResetBaseline : Option (List MutOp)
  contents : List MutOp
  qreports_ : List (String × QReport)
  qwarnings_ : List QReport
  qerrors_ : List QReport
  qothers_ : List QReport
deriving DecidableEq

/-- Embedded from the source: the manage() constructor sets
variedSince(true), folder_flag(false), resetMe(false); accumulate_on
defaults to false and no soft reset is active; the report map and the
buckets start empty. -/
def construct (name : String) : MEState :=
  ⟨name, ⟨true, false, false⟩, false, none, [], [], [], [], []⟩

/-- Folder-variant element, for the folder claims: same construction with
folder_flag set (folders are produced by the backend, outside the header). -/
def constructFolder (name : String) : MEState :=
  ⟨name, ⟨true, true, false⟩, false, none, [], [], [], [], []⟩

/-- Embedded from the source: wasUpdated() is true if the element changed in
the last monitoring cycle, i.e. the variedSince flag. -/
def wasUpdated (s : MEState) : Bool := s.man.variedSince

/-- Modelled from the spec: the isFolder() body is in a missing .cc file; it
reports the folder_flag variant tag. -/
def isFolder (s : MEState) : Bool := s.man.folder_flag

/-- Modelled from the spec: the isNotFolder() body is in a missing .cc file;
the header documents it as the opposite of isFolder. -/
def isNotFolder (s : MEState) : Bool := !s.man.folder_flag

/-- Embedded from the source: hasError() is the emptiness check on the error
bucket qerrors_. -/
def hasError (s : MEState) : Bool := !s.qerrors_.isEmpty

/-- Embedded from the source: hasWarning() is the emptiness check on the
warning bucket qwarnings_. -/
def hasWarning (s : MEState) : Bool := !s.qwarnings_.isEmpty

/-- Embedded from the source: hasOtherReport() is the emptiness check on the
bucket qothers_. -/
def hasOtherReport (s : MEState) : Bool := !s.qothers_.isEmpty

/-- Embedded from the source: getQReports() returns the report map by
value. -/
def getQReports (s : MEState) : List (String × QReport) := s.qreports_

/-- Embedded from the source: getQWarnings() returns the warning bucket by
value. -/
def getQWarnings (s : MEState) : List QReport := s.qwarnings_

/-- Embedded from the source: getQErrors() returns the error bucket by
value. -/
def getQErrors (s : MEState) : List QReport := s.qerrors_

/-- Embedded from the source: getQOthers() returns the other-status bucket by
value. -/
def getQOthers (s : MEState) : List QReport := s.qothers_

/-- Modelled from the spec: the getQReport(qtname) body is in a missing .cc
file; per the header and spec it returns the report stored under qtname, or
a null pointer, here none, when no such report exists. -/
def getQReport (qtname : String) (s : MEState) : Option QReport :=
  s.qreports_.lookup qtname

/-- Embedded from the source: tagString() builds
"<" + getName() + ">" + valueString() + "</" + getName() + ">", with
valueString() supplied by the concrete element kind. -/
def tagString (s : MEState) (valueString : String) : String :=
  "<" ++ s.name ++ ">" ++ valueString ++ "</" ++ s.name ++ ">"

/-- Error taxonomy of the core, per spec section 7. -/
inductive MEError
  | InvalidOperation
deriving DecidableEq

/-- Modelled from the spec: the Fill and setter bodies are in missing .cc
files; per spec section 4.1 a mutating call on a folder-variant element fails
with InvalidOperation, and a successful call delegates to the aggregate (the
mutation is appended to the contents log) and sets variedSince true. -/
def applyMut (m : MutOp) (s : MEState) : Except MEError MEState :=
  if s.man.folder_flag then .error .InvalidOperation
  else .ok { s with contents := m :: s.contents,
                    man := { s.man with variedSince := true } }

/-- Embedded from the source: setResetMe(flag) stores the reset-at-cycle-end
policy flag. -/
def setResetMe (flag : Bool) (s : MEState) : MEState :=
  { s with man := { s.man with resetMe := flag } }

/-- Embedded from the source: setAccumulate(flag) stores the accumulate_on
flag. -/
def setAccumulate (flag : Bool) (s : MEState) : MEState :=
  { s with accumulate_on := flag }

/-- Modelled from the spec: the cycle-end transition body is in the missing
backend .cc; per spec section 4.2, if resetMe and not accumulating it clears
the aggregate contents (the Reset capability) and clears variedSince,
otherwise it only clears variedSince; it never alters the report map or the
buckets. -/
def cycleEnd (s : MEState) : MEState :=
  if s.man.resetMe && !s.accumulate_on then
    { s with contents := [], man := { s.man with variedSince := false } }
  else
    { s with man := { s.man with variedSince := false } }

/-- Modelled from the spec: softReset() is only declared (with an empty base
default) in the header; per spec section 4.2 it is valid only while soft
reset is inactive and captures the current aggregate state as the baseline;
misuse while active is a no-op per spec section 7. -/
def softReset (s : MEState) : MEState :=
  match s.softResetBaseline with
  | none => { s with softResetBaseline := some s.contents }
  | some _ => s

/-- Modelled from the spec: disableSoftReset() clears the baseline; calling
it while inactive is a no-op, not an error. -/
def disableSoftReset (s : MEState) : MEState :=
  { s with softResetBaseline := none }

/-- Modelled from the spec: the runQTests() body is in a missing .cc file;
per spec section 4.3 it executes every test of the current registry, rebuilds
the report map wholesale from the produced reports, and fully recomputes the
three buckets as the partition of the new map values by status.  The
registry is the external collaborator, modelled as the list of reports the
current test set produces. -/
def runQTests (reg : List QReport) (s : MEState) : MEState :=
  { s with qreports_ := reg.map (fun r => (r.testName, r)),
           qerrors_ := reg.filter (fun r => r.status == QStatus.error),
           qwarnings_ := reg.filter (fun r => r.status == QStatus.warning),
           qothers_ := reg.filter (fun r => r.status == QStatus.other) }

/-- Values of the quality-report map, in map order. -/
def qreportValues (s : MEState) : List QReport := s.qreports_.map Prod.snd

/-- Operations of the full lifecycle, for properties over sequences. -/
inductive Op
  | mutate (m : MutOp)
  | opSetResetMe (b : Bool)
  | opSetAccumulate (b : Bool)
  | opCycleEnd
  | opSoftReset
  | opDisableSoftReset
  | opRunQTests (reg : List QReport)
deriving DecidableEq

/-- One lifecycle step; a rejected mutation (folder variant) leaves the
state unchanged. -/
def step (o : Op) (s : MEState) : MEState :=
  match o with
  | .mutate m => match applyMut m s with
              | .ok t => t
              | .error _ => s
  | .opSetResetMe b => setResetMe b s
  | .opSetAccumulate b => setAccumulate b s
  | .opCycleEnd => cycleEnd s
  | .opSoftReset => softReset s
  | .opDisableSoftReset => disableSoftReset s
  | .opRunQTests reg => runQTests reg s

/-- Run a sequence of lifecycle operations from a state. -/
def runOps (l : List Op) (s : MEState) : MEState :=
  l.foldl (fun t o => step o t) s

/-- Run a sequence of fills and setters, each through the mutation
contract. -/
def fillSeq (fs : List MutOp) (s : MEState) : MEState :=
  runOps (fs.map Op.mutate) s

/-- True on the four Fill arities. -/
def isFill : MutOp → Bool
  | .fill1 _ => true
  | .fill2 _ _ => true
  | .fill3 _ _ _ => true
  | .fill4 _ _ _ _ => true
  | _ => false

/-- Absolute entry count of the aggregate: the number of fills recorded in
the contents log; the representative absolute statistic getter. -/
def getEntriesAbs (s : MEState) : Int := ((s.contents.filter isFill).length : Int)

/-- Modelled from the spec: the baseline-relative variant of the statistic
getter; under an active soft reset it reports aggregate minus baseline,
otherwise the absolute value. -/
def getEntriesSinceSoftReset (s : MEState) : Int :=
  match s.softResetBaseline with
  | some b => getEntriesAbs s - ((b.filter isFill).length : Int)
  | none => getEntriesAbs s

/-- Report of the current registry run for a given test name, per the spec
wording: the report the run produced for that test, if any. -/
def findReport (x : String) (reg : List QReport) : Option QReport :=
  reg.find? (fun r => r.testName == x)

/-- Classification and status queries of the element, the const members of
MonitorElement.h. -/
inductive QueryOp
  | qWasUpdated
  | qHasError
  | qHasWarning
  | qHasOtherReport
  | qGetQReport (qtname : String)
  | qGetQReports
  | qGetQErrors
  | qGetQWarnings
  | qGetQOthers
  | qTagString (valueString : String)
deriving DecidableEq

/-- Result of a classification or status query. -/
inductive QueryOut
  | flag (b : Bool)
  | report (r : Option QReport)
  | reportMap (m : List (String × QReport))
  | reports (rs : List QReport)
  | text (t : String)
deriving DecidableEq

/-- Embedded from the source: each classification and status query is a
const member returning its result by value; the pair carries the query
result together with the element state after the call. -/
def applyQuery (q : QueryOp) (s : MEState) : QueryOut × MEState :=
  match q with
  | .qWasUpdated => (.flag (wasUpdated s), s)
  | .qHasError => (.flag (hasError s), s)
  | .qHasWarning => (.flag (hasWarning s), s)
  | .qHasOtherReport => (.flag (hasOtherReport s), s)
  | .qGetQReport x => (.report (getQReport x s), s)
  | .qGetQReports => (.reportMap (getQReports s), s)
  | .qGetQErrors => (.reports (getQErrors s), s)
  | .qGetQWarnings => (.reports (getQWarnings s), s)
  | .qGetQOthers => (.reports (getQOthers s), s)
  | .qTagString v => (.text (tagString s v), s)

/-- Fixture report for the witness theorems. -/
def wQReport (n : String) (st : QStatus) : QReport := ⟨n, st, "msg", "alg"⟩

/-- Fixture registry with one report of each status. -/
def wReg : List QReport :=
  [wQReport "t1" QStatus.error, wQReport "t2" QStatus.warning,
   wQReport "t3" QStatus.ok, wQReport "t4" QStatus.other]

/-- Fixture registry of a later, smaller test set. -/
def wRegB : List QReport := [wQReport "t2" QStatus.ok]

/-- Fixture element with the reset-at-cycle-end policy enabled. -/
def wState : MEState := setResetMe true (construct "e")

/-- Fixture operation sequence containing no setAccumulate false. -/
def wOps : List Op := [Op.mutate (MutOp.fill1 3), Op.opSetResetMe true, Op.opCycleEnd]

/-- Fixture fill-and-setter sequence. -/
def wFills : List MutOp := [MutOp.fill1 1, MutOp.setEntries 5, MutOp.fill2 1 2]

/-- Fixture element state right after one successful fill on a fresh
element. -/
def wFilled : MEState :=
  ⟨"e", ⟨true, false, false⟩, false, none, [MutOp.fill1 2], [], [], [], []⟩

/-- A lifecycle step other than setAccumulate false preserves an enabled
accumulate flag. -/
lemma step_accumulate_on (o : Op) (s : MEState) (ho : o ≠ Op.opSetAccumulate false)
    (hs : s.accumulate_on = true) : (step o s).accumulate_on = true := by
  cases o with
  | mutate m =>
      simp only [step, applyMut]
      by_cases hf : s.man.folder_flag <;> simp [hf, hs]
  | opSetResetMe b => simpa [step, setResetMe] using hs
  | opSetAccumulate b =>
      cases b with
      | false => exact absurd rfl ho
      | true => simp [step, setAccumulate]
  | opCycleEnd =>
      simp only [step, cycleEnd]
      by_cases hc : s.man.resetMe && !s.accumulate_on <;> simp [hc, hs]
  | opSoftReset =>
      simp only [step, softReset]
      cases s.softResetBaseline <;> simp [hs]
  | opDisableSoftReset => simpa [step, disableSoftReset] using hs
  | opRunQTests reg => simpa [step, runQTests] using hs

/-- Running operations none of which is setAccumulate false preserves an
enabled accumulate flag. -/
lemma runOps_accumulate_on (l : List Op) (s : MEState)
    (hl : ∀ o ∈ l, o ≠ Op.opSetAccumulate false) (hs : s.accumulate_on = true) :
    (runOps l s).accumulate_on = true := by
  induction l generalizing s with
  | nil => simpa [runOps] using hs
  | cons o t ih =>
      have h1 : (step o s).accumulate_on = true :=
        step_accumulate_on o s (hl o (List.mem_cons_self o t)) hs
      have h2 : ∀ o' ∈ t, o' ≠ Op.opSetAccumulate false :=
        fun o' ho' => hl o' (List.mem_cons_of_mem o ho')
      simpa [runOps, List.foldl_cons] using ih (step o s) h2 h1

/-- A mutation step never touches the soft-reset baseline. -/
lemma step_mut_baseline (m : MutOp) (s : MEState) :
    (step (Op.mutate m) s).softResetBaseline = s.softResetBaseline := by
  simp only [step, applyMut]
  by_cases hf : s.man.folder_flag <;> simp [hf]

/-- A sequence of fills and setters never touches the soft-reset
baseline. -/
lemma fillSeq_baseline (fs : List MutOp) (s : MEState) :
    (fillSeq fs s).softResetBaseline = s.softResetBaseline := by
  induction fs generalizing s with
  | nil => rfl
  | cons m t ih =>
      simpa [fillSeq, runOps, List.foldl_cons] using
        (ih (step (Op.mutate m) s)).trans (step_mut_baseline m s)

/-- Looking a key up in the report map built from a registry run finds the
first report the run produced under that name. -/
lemma lookup_map_eq_find (x : String) (reg : List QReport) :
    (reg.map (fun r => (r.testName, r))).lookup x = findReport x reg := by
  induction reg with
  | nil => rfl
  | cons r t ih =>
      simp only [List.map_cons, List.lookup, findReport, List.find?]
      by_cases h : r.testName = x
      · simp [h]
      · have hx : (x == r.testName) = false := by
          simpa [beq_iff_eq] using fun he => h he.symm
        have hr : (r.testName == x) = false := by simpa [beq_iff_eq] using h
        simpa [hx, hr] using ih

/-- Claim C1: the cycle-end transition clears the aggregate contents iff
resetAtCycleEnd is true and accumulating is false; it always clears
wasVariedSinceLastCycle and never alters the quality-report map; and
enabling accumulate at any point before a cycle-end transition, with no
later disabling, prevents that transition from clearing the contents even
when resetAtCycleEnd is true. -/
theorem cycleEnd_reset_iff_accumulate_prevents (s : MEState) (l : List Op)
    (hl : ∀ o ∈ l, o ≠ Op.opSetAccumulate false) :
    (cycleEnd s).contents
        = (if s.man.resetMe && !s.accumulate_on then [] else s.contents)
    ∧ wasUpdated (cycleEnd s) = false
    ∧ (cycleEnd s).qreports_ = s.qreports_
    ∧ (cycleEnd (runOps l (setAccumulate true s))).contents
        = (runOps l (setAccumulate true s)).contents := by
  have hacc : (runOps l (setAccumulate true s)).accumulate_on = true :=
    runOps_accumulate_on l (setAccumulate true s) hl rfl
  refine ⟨?_, ?_, ?_, ?_⟩
  · by_cases hc : s.man.resetMe && !s.accumulate_on <;> simp [cycleEnd, hc]
  · by_cases hc : s.man.resetMe && !s.accumulate_on <;> simp [cycleEnd, wasUpdated, hc]
  · by_cases hc : s.man.resetMe && !s.accumulate_on <;> simp [cycleEnd, hc]
  · simp [cycleEnd, hacc]

/-- Witness for C1 at a concrete element and operation sequence. -/
theorem cycleEnd_reset_iff_accumulate_prevents_witness :
    (∀ o ∈ wOps, o ≠ Op.opSetAccumulate false)
    ∧ ((cycleEnd wState).contents
          = (if wState.man.resetMe && !wState.accumulate_on then [] else wState.contents)
       ∧ wasUpdated (cycleEnd wState) = false
       ∧ (cycleEnd wState).qreports_ = wState.qreports_
       ∧ (cycleEnd (runOps wOps (setAccumulate true wState))).contents
          = (runOps wOps (setAccumulate true wState)).contents) :=
  ⟨by decide, cycleEnd_reset_iff_accumulate_prevents wState wOps (by decide)⟩

/-- Claim C3: wasVariedSinceLastCycle is true immediately after
construction, true immediately after any successful fill or mutating
setter, and false immediately after a cycle-end transition, whatever the
reset and accumulate flags are. -/
theorem variedSince_lifecycle (n : String) (m : MutOp) (s u : MEState)
    (hm : applyMut m s = Except.ok u) :
    wasUpdated (construct n) = true
    ∧ wasUpdated u = true
    ∧ wasUpdated (cycleEnd s) = false := by
  refine ⟨rfl, ?_, ?_⟩
  · by_cases hf : s.man.folder_flag
    · simp [applyMut, hf] at hm
    · simp only [applyMut, hf, if_neg, Bool.false_eq_true, ite_false] at hm
      cases hm
      rfl
  · by_cases hc : s.man.resetMe && !s.accumulate_on <;> simp [cycleEnd, wasUpdated, hc]

/-- Witness for C3 at a concrete fill on a fresh element. -/
theorem variedSince_lifecycle_witness :
    applyMut (MutOp.fill1 2) (construct "e") = Except.ok wFilled
    ∧ (wasUpdated (construct "e") = true
       ∧ wasUpdated wFilled = true
       ∧ wasUpdated (cycleEnd (construct "e")) = false) :=
  ⟨rfl, variedSince_lifecycle "e" (MutOp.fill1 2) (construct "e") wFilled rfl⟩

/-- Claim C5: on a folder-variant element every mutating operation, any Fill
arity or direct setter, fails with InvalidOperation and leaves the element
unchanged. -/
theorem folder_mutation_rejected (m : MutOp) (s : MEState)
    (h : isFolder s = true) :
    applyMut m s = Except.error MEError.InvalidOperation
    ∧ step (Op.mutate m) s = s := by
  have hf : s.man.folder_flag = true := h
  exact ⟨by simp [applyMut, hf], by simp [step, applyMut, hf]⟩

/-- Witness for C5 at a concrete folder element and setter. -/
theorem folder_mutation_rejected_witness :
    isFolder (constructFolder "d") = true
    ∧ (applyMut (MutOp.setEntries 7) (constructFolder "d")
          = Except.error MEError.InvalidOperation
       ∧ step (Op.mutate (MutOp.setEntries 7)) (constructFolder "d")
          = constructFolder "d") :=
  ⟨by decide, folder_mutation_rejected (MutOp.setEntries 7) (constructFolder "d") (by decide)⟩

/-- Claim C9: in every state isNotFolder is exactly the negation of
isFolder; one of the two is true and the other false. -/
theorem isNotFolder_opposite (s : MEState) :
    isNotFolder s = !isFolder s ∧ isFolder s ≠ isNotFolder s := by
  cases hf : s.man.folder_flag <;> simp [isFolder, isNotFolder, hf]

/-- Claim C2: after any runQTests call the three buckets are exactly the
reports of the rebuilt map with status Error, Warning and Other
respectively, they are pairwise disjoint, and every report of the map has
one of the four statuses Error, Warning, Other, Ok. -/
theorem runQTests_partition (s : MEState) (reg : List QReport) :
    (∀ r, r ∈ (runQTests reg s).qerrors_ ↔
        r ∈ qreportValues (runQTests reg s) ∧ r.status = QStatus.error)
    ∧ (∀ r, r ∈ (runQTests reg s).qwarnings_ ↔
        r ∈ qreportValues (runQTests reg s) ∧ r.status = QStatus.warning)
    ∧ (∀ r, r ∈ (runQTests reg s).qothers_ ↔
        r ∈ qreportValues (runQTests reg s) ∧ r.status = QStatus.other)
    ∧ (∀ r ∈ (runQTests reg s).qerrors_,
        r ∉ (runQTests reg s).qwarnings_ ∧ r ∉ (runQTests reg s).qothers_)
    ∧ (∀ r ∈ (runQTests reg s).qwarnings_, r ∉ (runQTests reg s).qothers_)
    ∧ (∀ r ∈ qreportValues (runQTests reg s),
        r.status = QStatus.error ∨ r.status = QStatus.warning
        ∨ r.status = QStatus.other ∨ r.status = QStatus.ok) := by
  have hcomp : (Prod.snd ∘ fun r : QReport => (r.testName, r)) = id :=
    funext (fun r => rfl)
  have hv : qreportValues (runQTests reg s) = reg := by
    simp only [qreportValues, runQTests, List.map_map]
    rw [hcomp, List.map_id]
  refine ⟨?_, ?_, ?_, ?_, ?_, ?_⟩
  · intro r
    rw [hv]
    simp [runQTests, List.mem_filter]
  · intro r
    rw [hv]
    simp [runQTests, List.mem_filter]
  · intro r
    rw [hv]
    simp [runQTests, List.mem_filter]
  · intro r hr
    have he : r.status = QStatus.error := by
      simp [runQTests, List.mem_filter] at hr
      exact hr.2
    refine ⟨fun hw => ?_, fun ho => ?_⟩
    · have hw2 : r.status = QStatus.warning := by
        simp [runQTests, List.mem_filter] at hw
        exact hw.2
      rw [he] at hw2
      cases hw2
    · have ho2 : r.status = QStatus.other := by
        simp [runQTests, List.mem_filter] at ho
        exact ho.2
      rw [he] at ho2
      cases ho2
  · intro r hr ho
    have hw2 : r.status = QStatus.warning := by
      simp [runQTests, List.mem_filter] at hr
      exact hr.2
    have ho2 : r.status = QStatus.other := by
      simp [runQTests, List.mem_filter] at ho
      exact ho.2
    rw [hw2] at ho2
    cases ho2
  · intro r _
    cases hst : r.status with
    | ok => exact Or.inr (Or.inr (Or.inr rfl))
    | warning => exact Or.inr (Or.inl rfl)
    | error => exact Or.inl rfl
    | other => exact Or.inr (Or.inr (Or.inl rfl))

/-- Claim C4: softReset is valid only while inactive, capturing the current
aggregate state as the baseline; from then on, for any sequence of fills
with no intervening disableSoftReset, the baseline-relative getter reports
the current absolute value minus the value at the moment of softReset; and
after disableSoftReset the same getter reports the absolute value again. -/
theorem softReset_delta_getters (s : MEState) (fs : List MutOp)
    (h : s.softResetBaseline = none) :
    (softReset s).softResetBaseline = some s.contents
    ∧ getEntriesSinceSoftReset (fillSeq fs (softReset s))
        = getEntriesAbs (fillSeq fs (softReset s)) - getEntriesAbs s
    ∧ getEntriesSinceSoftReset (disableSoftReset (fillSeq fs (softReset s)))
        = getEntriesAbs (disableSoftReset (fillSeq fs (softReset s))) := by
  have h1 : (softReset s).softResetBaseline = some s.contents := by
    simp [softReset, h]
  have h2 : (fillSeq fs (softReset s)).softResetBaseline = some s.contents :=
    (fillSeq_baseline fs (softReset s)).trans h1
  refine ⟨h1, ?_, ?_⟩
  · simp [getEntriesSinceSoftReset, h2, getEntriesAbs]
  · simp [getEntriesSinceSoftReset, disableSoftReset, getEntriesAbs]

/-- Witness for C4 at a concrete element and fill sequence. -/
theorem softReset_delta_getters_witness :
    wState.softResetBaseline = none
    ∧ ((softReset wState).softResetBaseline = some wState.contents
       ∧ getEntriesSinceSoftReset (fillSeq wFills (softReset wState))
          = getEntriesAbs (fillSeq wFills (softReset wState)) - getEntriesAbs wState
       ∧ getEntriesSinceSoftReset (disableSoftReset (fillSeq wFills (softReset wState)))
          = getEntriesAbs (disableSoftReset (fillSeq wFills (softReset wState)))) :=
  ⟨rfl, softReset_delta_getters wState wFills rfl⟩

/-- Claim C6: getQReport returns an explicit absent result, never an
exception, on a fresh element; after a runQTests run it returns exactly the
report the current registry produced for the name; and after a later run
whose registry no longer includes the test, the superseded report is gone
and the result is absent again. -/
theorem getQReport_lifecycle (x n : String) (regA regB : List QReport) (s : MEState)
    (hB : ∀ r ∈ regB, r.testName ≠ x) :
    getQReport x (construct n) = none
    ∧ getQReport x (runQTests regA s) = findReport x regA
    ∧ getQReport x (runQTests regB (runQTests regA s)) = none := by
  refine ⟨rfl, ?_, ?_⟩
  · simpa [getQReport, runQTests] using lookup_map_eq_find x regA
  · have hf : findReport x regB = none := by
      simp only [findReport, List.find?_eq_none]
      intro r hr
      simpa [beq_iff_eq] using hB r hr
    simpa [getQReport, runQTests, hf] using lookup_map_eq_find x regB

/-- Witness for C6 at a concrete test name and two concrete registries. -/
theorem getQReport_lifecycle_witness :
    (∀ r ∈ wRegB, r.testName ≠ "t1")
    ∧ (getQReport "t1" (construct "e") = none
       ∧ getQReport "t1" (runQTests wReg (construct "e")) = findReport "t1" wReg
       ∧ getQReport "t1" (runQTests wRegB (runQTests wReg (construct "e"))) = none) :=
  ⟨by decide, getQReport_lifecycle "t1" "e" wReg wRegB (construct "e") (by decide)⟩

/-- Claim C7: tagString is exactly the concatenation of an opening tag of
the element name, the value string, and the matching closing tag; at name
rate with value string f = 2.5 it yields the exact tagged text. -/
theorem tagString_format (s : MEState) (v : String) :
    tagString s v = "<" ++ s.name ++ ">" ++ v ++ "</" ++ s.name ++ ">"
    ∧ tagString (construct "rate") "f = 2.5" = "<rate>f = 2.5</rate>" :=
  ⟨rfl, by decide⟩

/-- Claim C10: every classification and status query leaves the element
state, its flags, its report map and its buckets, unchanged, and the bucket
and map getters return the stored values themselves, by value. -/
theorem queries_preserve_state (q : QueryOp) (s : MEState) :
    (applyQuery q s).2 = s
    ∧ getQReports s = s.qreports_
    ∧ getQErrors s = s.qerrors_
    ∧ getQWarnings s = s.qwarnings_
    ∧ getQOthers s = s.qothers_ := by
  refine ⟨?_, rfl, rfl, rfl, rfl⟩
  cases q <;> rfl

end MonitorElement
